import Mathlib

/-!
Shallow embedding of the analytical core of the Data-Visualization-Analyzer
repository: the statistics reporter (src/data_analyzer.py) and the chart
dispatcher (src/visualization_engine.py).

Modelling conventions:
* a pandas DataFrame is a `Table`: a list of named columns plus an explicit
  row count; the invariant `WF` states every column has `nrows` cells;
* a cell is a rational number, a string, or an explicit missing marker
  (pandas NaN / None); float arithmetic is idealised as exact arithmetic
  over `ℚ`;
* a float NaN result (for example an unguarded 0/0, or a correlation with a
  zero variance) is modelled as `Option.none`;
* a Pearson correlation r = sxy / sqrt(sxx * syy) is irrational in general,
  so a correlation value is encoded by the order-isomorphic quantity
  sign(r) * r ^ 2 = sxy * |sxy| / (sxx * syy), which lives in `ℚ`; under
  this encoding the threshold |r| > 0.7 becomes |enc| > 0.49 exactly, and
  r = 1 is encoded by 1;
* a raised Python exception is `Except.error` carrying the message string;
  pandas KeyError(name) stringifies to the name wrapped in single quotes
  (modelled with the escape \x27).
-/

namespace DVA

/-- One cell of a pandas DataFrame: a numeric value, a string value, or a
missing marker (NaN / None). -/
inductive Cell where
  | num (q : ℚ)
  | str (s : String)
  | na
deriving DecidableEq, Repr

/-- One DataFrame column: its name, whether its dtype is numeric
(`select_dtypes(include=[np.number])` keeps it), and its cells. -/
structure Column where
  name : String
  numericDtype : Bool
  cells : List Cell
deriving DecidableEq, Repr

/-- A pandas DataFrame: ordered columns plus the row count. -/
structure Table where
  cols : List Column
  nrows : ℕ
deriving DecidableEq, Repr

/-- Data-model invariant: every column has exactly `nrows` cells. -/
def WF (t : Table) : Prop := ∀ c ∈ t.cols, c.cells.length = t.nrows

instance (t : Table) : Decidable (WF t) := List.decidableBAll _ _

/-- Whether a cell is missing (`pd.isnull`). -/
def Cell.isNA : Cell → Bool
  | .na => true
  | _ => false

/-- The list of column names (`data.columns`). -/
def colNames (t : Table) : List String := t.cols.map (·.name)

/-- The numeric sub-frame `data.select_dtypes(include=[np.number])`,
as its list of columns (rows are unchanged by the selection). -/
def selectNumeric (t : Table) : List Column := t.cols.filter (·.numericDtype)

/-- The number of missing cells of one column (`data[col].isnull().sum()`). -/
def missingCount (c : Column) : ℕ := c.cells.countP Cell.isNA

/-- The non-missing numeric values of a column, in row order. -/
def numericValues (c : Column) : List ℚ :=
  c.cells.filterMap fun cell =>
    match cell with
    | .num q => some q
    | _ => none

/-- Round to the nearest integer, ties to even: the rounding used by
numpy / pandas `round` and by Python float formatting. -/
def roundHalfEven (q : ℚ) : ℤ :=
  if q - ⌊q⌋ < 1/2 then ⌊q⌋
  else if (1 : ℚ)/2 < q - ⌊q⌋ then ⌊q⌋ + 1
  else if 2 ∣ ⌊q⌋ then ⌊q⌋ else ⌊q⌋ + 1

/-- Round a rational to `d` decimal places, ties to even. -/
def roundTo (d : ℕ) (q : ℚ) : ℚ := (roundHalfEven (q * 10 ^ d) : ℚ) / 10 ^ d

/-! ### analyze_missing_values (src/data_analyzer.py, lines 95-123) -/

/-- Structured content of the missing-value report text.
`overallPct` is `none` when `total_cells` is zero: the source divides
`total_missing/total_cells` without a guard and numpy yields NaN.
`perColumn` lists, for each column kept by the `> 0` filter, the column
name, its missing count and its percentage rounded to 2 decimals.
`noMissingShown` is true when the designated "没有缺失值" line replaces the
per-column listing. -/
structure MissingReport where
  totalCells : ℕ
  totalMissing : ℕ
  overallPct : Option ℚ
  perColumn : List (String × ℕ × ℚ)
  noMissingShown : Bool
deriving DecidableEq, Repr

/-- Embedding of `DataAnalyzer.analyze_missing_values`:
`total_cells = np.product(data.shape)`; `total_missing` sums the per-column
missing counts; per-column percentage is `missing_count / len(data) * 100`
rounded to 2 decimals; only columns with missing count `> 0` are listed;
when the filtered frame is empty the "没有缺失值" message is shown. -/
def analyze_missing_values (t : Table) : MissingReport :=
  let totalCells := t.nrows * t.cols.length
  let totalMissing := (t.cols.map missingCount).sum
  let overallPct : Option ℚ :=
    if totalCells = 0 then none
    else some ((totalMissing : ℚ) / (totalCells : ℚ) * 100)
  let entries :=
    (t.cols.map fun c =>
      (c.name, missingCount c,
        roundTo 2 ((missingCount c : ℚ) / (t.nrows : ℚ) * 100))).filter
      fun e => 0 < e.2.1
  { totalCells := totalCells
    totalMissing := totalMissing
    overallPct := overallPct
    perColumn := entries
    noMissingShown := entries.isEmpty }

/-- Claim C5: for every table, the per-column listing of
`analyze_missing_values` contains exactly the columns with a positive
missing count; each listed entry reports the column name, its missing count
`m`, and the percentage `100·m/r` rounded to 2 decimals (`r` the row
count); and when the table has no missing cell at all the listing is empty
and the designated "没有缺失值" message is shown instead. -/
theorem missing_values_spec (t : Table) (hwf : WF t) :
    (∀ e ∈ (analyze_missing_values t).perColumn,
      ∃ c ∈ t.cols, e.1 = c.name ∧ e.2.1 = missingCount c ∧ 0 < missingCount c ∧
        e.2.2 = roundTo 2 (100 * (missingCount c : ℚ) / (t.nrows : ℚ))) ∧
    (∀ c ∈ t.cols, 0 < missingCount c →
      (c.name, missingCount c,
        roundTo 2 (100 * (missingCount c : ℚ) / (t.nrows : ℚ))) ∈
        (analyze_missing_values t).perColumn) ∧
    ((analyze_missing_values t).totalMissing = 0 →
      (analyze_missing_values t).perColumn = [] ∧
      (analyze_missing_values t).noMissingShown = true) := by
  have hform : ∀ m : ℕ, (m : ℚ) / (t.nrows : ℚ) * 100 = 100 * (m : ℚ) / (t.nrows : ℚ) := by
    intro m; ring
  refine ⟨?_, ?_, ?_⟩
  · intro e he
    simp only [analyze_missing_values, List.mem_filter, List.mem_map] at he
    obtain ⟨⟨c, hc, rfl⟩, hpos⟩ := he
    simp only [decide_eq_true_eq] at hpos
    exact ⟨c, hc, rfl, rfl, hpos, by rw [hform]⟩
  · intro c hc hpos
    simp only [analyze_missing_values, List.mem_filter, List.mem_map]
    refine ⟨⟨c, hc, by rw [hform]⟩, by simpa using hpos⟩
  · intro h0
    have hall : ∀ c ∈ t.cols, missingCount c = 0 := by
      intro c hc
      have : (t.cols.map missingCount).sum = 0 := h0
      rw [List.sum_eq_zero_iff] at this
      exact this _ (List.mem_map_of_mem _ hc)
    have hnil : (analyze_missing_values t).perColumn = [] := by
      simp only [analyze_missing_values]
      rw [List.filter_eq_nil_iff]
      intro e he
      simp only [List.mem_map] at he
      obtain ⟨c, hc, rfl⟩ := he
      simp [hall c hc]
    refine ⟨hnil, ?_⟩
    simp only [analyze_missing_values] at hnil ⊢
    simp [hnil, List.isEmpty_iff]

/-- Witness for C5 at a concrete table with one missing cell. -/
theorem missing_values_spec_witness :
    WF ⟨[⟨"a", true, [.num 1, .na]⟩], 2⟩ ∧
    ((∀ e ∈ (analyze_missing_values ⟨[⟨"a", true, [.num 1, .na]⟩], 2⟩).perColumn,
      ∃ c ∈ (⟨[⟨"a", true, [.num 1, .na]⟩], 2⟩ : Table).cols,
        e.1 = c.name ∧ e.2.1 = missingCount c ∧ 0 < missingCount c ∧
        e.2.2 = roundTo 2 (100 * (missingCount c : ℚ) / 2)) ∧
    (∀ c ∈ (⟨[⟨"a", true, [.num 1, .na]⟩], 2⟩ : Table).cols, 0 < missingCount c →
      (c.name, missingCount c, roundTo 2 (100 * (missingCount c : ℚ) / 2)) ∈
        (analyze_missing_values ⟨[⟨"a", true, [.num 1, .na]⟩], 2⟩).perColumn) ∧
    ((analyze_missing_values ⟨[⟨"a", true, [.num 1, .na]⟩], 2⟩).totalMissing = 0 →
      (analyze_missing_values ⟨[⟨"a", true, [.num 1, .na]⟩], 2⟩).perColumn = [] ∧
      (analyze_missing_values ⟨[⟨"a", true, [.num 1, .na]⟩], 2⟩).noMissingShown = true)) :=
  ⟨by decide, missing_values_spec _ (by decide)⟩

/-- Claim C10: `analyze_missing_values` divides by the total cell count with
no guard; for every table with zero rows or zero columns that count is zero
and the overall missing percentage is the undefined value (numpy NaN,
modelled `none`). -/
theorem missing_values_unguarded_division (t : Table)
    (h : t.nrows = 0 ∨ t.cols = []) :
    (analyze_missing_values t).totalCells = 0 ∧
    (analyze_missing_values t).overallPct = none := by
  have hz : t.nrows * t.cols.length = 0 := by
    rcases h with h | h
    · simp [h]
    · simp [h]
  constructor
  · simpa [analyze_missing_values] using hz
  · simp [analyze_missing_values, hz]

/-- Witness for C10 at a concrete zero-row table. -/
theorem missing_values_unguarded_division_witness :
    ((⟨[⟨"a", true, []⟩], 0⟩ : Table).nrows = 0 ∨
      (⟨[⟨"a", true, []⟩], 0⟩ : Table).cols = []) ∧
    ((analyze_missing_values ⟨[⟨"a", true, []⟩], 0⟩).totalCells = 0 ∧
      (analyze_missing_values ⟨[⟨"a", true, []⟩], 0⟩).overallPct = none) :=
  ⟨Or.inl rfl, missing_values_unguarded_division _ (Or.inl rfl)⟩

/-! ### analyze_correlations (src/data_analyzer.py, lines 58-93)

`numeric_data.corr()` (pandas `nancorr`): for each pair of columns the rows
where both cells are present are kept, and
r = sxy / sqrt(sxx * syy) over those pairs, NaN when the divisor is zero
(this includes diagonal entries of constant columns). Modelled exactly in
`ℚ` by the encoding sign(r) * r ^ 2 — see the header comment. -/

/-- The rows where both cells are numeric (pairwise-complete observations,
as pandas `corr` uses). -/
def validPairs (xs ys : List Cell) : List (ℚ × ℚ) :=
  (xs.zip ys).filterMap fun p =>
    match p with
    | (.num a, .num b) => some (a, b)
    | _ => none

/-- The sum of products of deviations from the means,
Σ (aᵢ - mean a)·(bᵢ - mean b), over a list of pairs. -/
def sumDevProd (ps : List (ℚ × ℚ)) : ℚ :=
  let mx := (ps.map Prod.fst).sum / (ps.length : ℚ)
  let my := (ps.map Prod.snd).sum / (ps.length : ℚ)
  (ps.map fun p => (p.1 - mx) * (p.2 - my)).sum

/-- One entry of `numeric_data.corr()` between two cell columns, in the
sign(r) * r ^ 2 encoding; `none` models the NaN pandas produces when the
divisor sqrt(sxx * syy) is zero. -/
def corrCells (xs ys : List Cell) : Option ℚ :=
  let ps := validPairs xs ys
  let sxy := sumDevProd ps
  let sxx := sumDevProd (ps.map fun p => (p.1, p.1))
  let syy := sumDevProd (ps.map fun p => (p.2, p.2))
  if sxx * syy = 0 then none
  else some (sxy * |sxy| / (sxx * syy))

/-- The sum of squared deviations of the numeric pairs of a column with
itself; it is zero exactly when pandas puts NaN on the corresponding
diagonal entry of the correlation matrix. -/
def varianceProxy (xs : List Cell) : ℚ :=
  sumDevProd (validPairs xs xs)

/-- The correlation matrix `numeric_data.corr()` of a table, indexed by
positions of its numeric columns. -/
def corrMatrix (t : Table) (i j : Fin (selectNumeric t).length) : Option ℚ :=
  corrCells ((selectNumeric t).get i).cells ((selectNumeric t).get j).cells

/-- The body of the strong-correlation test for one ordered pair of
columns: `abs(corr) > 0.7` on the matrix entry (false for NaN, as in
Python), packaging `(col1, col2, corr)` on success. Under the encoding,
|r| > 0.7 is exactly |enc| > 0.49. -/
def strongOf (c d : Column) : Option (String × String × ℚ) :=
  match corrCells c.cells d.cells with
  | some e => if 49/100 < |e| then some (c.name, d.name, e) else none
  | none => none

/-- The double loop `for i in range(n): for j in range(i+1, n)` collecting
the strong correlations in order. -/
def strongCorrelations : List Column → List (String × String × ℚ)
  | [] => []
  | c :: rest => rest.filterMap (strongOf c) ++ strongCorrelations rest

/-- Structured outcome of `analyze_correlations`: an early-return message,
or the assembled report carrying the strong-pair list and whether the
"未发现强相关性" line was emitted in place of the list. -/
inductive CorrOutcome where
  | message (s : String)
  | report (strong : List (String × String × ℚ)) (noStrongShown : Bool)
deriving DecidableEq, Repr

/-- Embedding of `DataAnalyzer.analyze_correlations`. `numeric_data.empty`
is true when the numeric sub-frame has zero columns or zero rows, which is
the first guard of the source. -/
def analyze_correlations (t : Table) : CorrOutcome :=
  let nd := selectNumeric t
  if nd.isEmpty || t.nrows == 0 then .message "没有数值型数据可用于相关性分析"
  else if nd.length < 2 then .message "需要至少两个数值型变量进行相关性分析"
  else .report (strongCorrelations nd) (strongCorrelations nd).isEmpty

/-- Counterexample to claim C2: a table whose single column has numeric
dtype but zero rows. pandas `.empty` is true for a zero-row frame, so the
source returns the "no numeric data" message, not the "need at least two"
message the claim requires for every table with exactly one numeric
column. -/
def tOneNumericNoRows : Table := ⟨[⟨"a", true, []⟩], 0⟩

/-- Claim C2, counterexample: a table with exactly one numeric column for
which `analyze_correlations` does not return the "need at least two"
message but the "no numeric data" one. -/
theorem corr_one_numeric_column_zero_rows :
    (selectNumeric tOneNumericNoRows).length = 1 ∧
    analyze_correlations tOneNumericNoRows =
      .message "没有数值型数据可用于相关性分析" := by
  constructor
  · rfl
  · rfl

/-- Claim C2, amended: a table with zero numeric columns gets the
"no numeric data" message; a table with exactly one numeric column *and at
least one row* gets the "need at least two" message (a zero-row frame is
`empty` for pandas and takes the first branch instead). -/
theorem corr_insufficient_numeric_messages (t u : Table)
    (ht : selectNumeric t = [])
    (hu : (selectNumeric u).length = 1) (hr : 1 ≤ u.nrows) :
    analyze_correlations t = .message "没有数值型数据可用于相关性分析" ∧
    analyze_correlations u = .message "需要至少两个数值型变量进行相关性分析" := by
  constructor
  · simp [analyze_correlations, ht]
  · have hne : (selectNumeric u).isEmpty = false := by
      rcases h : selectNumeric u with _ | ⟨c, rest⟩
      · rw [h] at hu; simp at hu
      · rfl
    have hr0 : (u.nrows == 0) = false := by
      simp only [beq_eq_false_iff_ne, ne_eq]
      omega
    simp [analyze_correlations, hne, hr0, hu]

/-- Witness for the amended C2 at concrete tables. -/
theorem corr_insufficient_numeric_messages_witness :
    selectNumeric ⟨[⟨"s", false, [.str "p"]⟩], 1⟩ = [] ∧
    (selectNumeric ⟨[⟨"a", true, [.num 3]⟩], 1⟩).length = 1 ∧
    1 ≤ (⟨[⟨"a", true, [.num 3]⟩], 1⟩ : Table).nrows ∧
    (analyze_correlations ⟨[⟨"s", false, [.str "p"]⟩], 1⟩ =
      .message "没有数值型数据可用于相关性分析" ∧
    analyze_correlations ⟨[⟨"a", true, [.num 3]⟩], 1⟩ =
      .message "需要至少两个数值型变量进行相关性分析") :=
  ⟨by decide, by decide, by decide,
    corr_insufficient_numeric_messages _ _ (by decide) (by decide) (by decide)⟩

/-! ### Characterization of the strong-correlation list (claim C3) -/

/-- A two-element sublist of `a :: l` either avoids the head or starts with
it. -/
theorem pair_sublist_cons {α : Type _} {c d a : α} {l : List α} :
    [c, d].Sublist (a :: l) ↔ [c, d].Sublist l ∨ (c = a ∧ [d].Sublist l) := by
  constructor
  · intro h
    cases h with
    | cons _ h => exact Or.inl h
    | cons₂ _ h => exact Or.inr ⟨rfl, h⟩
  · rintro (h | ⟨rfl, h⟩)
    · exact h.cons _
    · exact h.cons₂ _

/-- Both elements of a two-element sublist are members. -/
theorem pair_sublist_mem {α : Type _} {c d : α} {l : List α}
    (h : [c, d].Sublist l) : c ∈ l ∧ d ∈ l :=
  ⟨h.subset (by simp), h.subset (by simp)⟩

/-- In a duplicate-free list, a two-element sublist cannot occur in both
orders. -/
theorem pair_sublist_antisymm {α : Type _} {l : List α} (hl : l.Nodup)
    {c d : α} (h1 : [c, d].Sublist l) (h2 : [d, c].Sublist l) : False := by
  induction l with
  | nil => simp at h1
  | cons a rest ih =>
    rw [List.nodup_cons] at hl
    rw [pair_sublist_cons] at h1 h2
    rcases h1 with h1 | ⟨rfl, h1⟩
    · rcases h2 with h2 | ⟨rfl, h2⟩
      · exact ih hl.2 h1 h2
      · exact hl.1 (pair_sublist_mem h1).2
    · rcases h2 with h2 | ⟨he, h2⟩
      · exact hl.1 (pair_sublist_mem h2).2
      · exact hl.1 (he ▸ List.singleton_sublist.mp h1)

/-- Membership in the collected strong-correlation list corresponds exactly
to an index-ordered pair of columns passing the threshold test; the
`Sublist` relation on a two-element list captures `i < j` of the source
loop. -/
theorem mem_strongCorrelations {L : List Column} {p : String × String × ℚ} :
    p ∈ strongCorrelations L ↔
      ∃ c d, [c, d].Sublist L ∧ strongOf c d = some p := by
  induction L with
  | nil =>
    simp only [strongCorrelations, List.not_mem_nil, false_iff]
    rintro ⟨c, d, h, -⟩
    simp at h
  | cons a rest ih =>
    simp only [strongCorrelations, List.mem_append, List.mem_filterMap, ih]
    constructor
    · rintro (⟨d, hd, hs⟩ | ⟨c, d, hcd, hs⟩)
      · exact ⟨a, d, pair_sublist_cons.mpr (Or.inr ⟨rfl, List.singleton_sublist.mpr hd⟩), hs⟩
      · exact ⟨c, d, pair_sublist_cons.mpr (Or.inl hcd), hs⟩
    · rintro ⟨c, d, hcd, hs⟩
      rcases pair_sublist_cons.mp hcd with h | ⟨rfl, h⟩
      · exact Or.inr ⟨c, d, h, hs⟩
      · exact Or.inl ⟨d, List.singleton_sublist.mp h, hs⟩

/-- Unfolding of one strong-correlation test. -/
theorem strongOf_eq_some {c d : Column} {a b : String} {e : ℚ} :
    strongOf c d = some (a, b, e) ↔
      a = c.name ∧ b = d.name ∧ corrCells c.cells d.cells = some e ∧
        49/100 < |e| := by
  unfold strongOf
  rcases h : corrCells c.cells d.cells with _ | e'
  · simp
  · by_cases h49 : 49/100 < |e'|
    · simp only [if_pos h49, Option.some_inj, Prod.mk.injEq]
      constructor
      · rintro ⟨rfl, rfl, rfl⟩
        exact ⟨rfl, rfl, rfl, h49⟩
      · rintro ⟨rfl, rfl, he, -⟩
        obtain rfl : e' = e := by simpa using he
        exact ⟨rfl, rfl, rfl⟩
    · simp only [if_neg h49]
      simp only [false_iff, reduceCtorEq]
      rintro ⟨rfl, rfl, he, hx⟩
      obtain rfl : e' = e := by simpa using he
      exact h49 hx

/-- Columns of a table are determined by their names when the table
column names are duplicate-free. -/
theorem col_eq_of_name_eq {l : List Column} (h : (l.map Column.name).Nodup)
    {c d : Column} (hc : c ∈ l) (hd : d ∈ l) (he : c.name = d.name) :
    c = d :=
  List.inj_on_of_nodup_map h hc hd he

/-- Counterexample table for claim C3: two numeric-dtype columns, zero
rows. -/
def tTwoNumericNoRows : Table := ⟨[⟨"a", true, []⟩, ⟨"b", true, []⟩], 0⟩

/-- Claim C3, counterexample: a table with two numeric columns and no
strong pair for which `analyze_correlations` emits the "no numeric data"
early message (pandas `.empty` is true on a zero-row frame), not the
"未发现强相关性" line the claim requires. -/
theorem corr_strong_list_zero_rows :
    2 ≤ (selectNumeric tTwoNumericNoRows).length ∧
    strongCorrelations (selectNumeric tTwoNumericNoRows) = [] ∧
    analyze_correlations tTwoNumericNoRows =
      .message "没有数值型数据可用于相关性分析" := by
  have h0 : corrCells [] [] = none := by
    simp [corrCells, validPairs, sumDevProd]
  refine ⟨by decide, ?_, rfl⟩
  have hsel : selectNumeric tTwoNumericNoRows =
      [⟨"a", true, []⟩, ⟨"b", true, []⟩] := rfl
  rw [hsel]
  simp [strongCorrelations, strongOf, h0]

/-- Claim C3, amended (the zero-row case forces the extra `1 ≤ t.nrows`
hypothesis): for a table with at least two numeric columns and at least one
row, `analyze_correlations` reports the strong-correlation list, whose
members are exactly the index-ordered off-diagonal column pairs whose
encoded Pearson coefficient passes the |r| > 0.7 test; every reported pair
has two distinct names, each unordered pair occurs at most once, and the
"未发现强相关性" flag is set exactly when the list is empty. -/
theorem strong_correlations_spec (t : Table)
    (h2 : 2 ≤ (selectNumeric t).length) (hr : 1 ≤ t.nrows)
    (hn : (colNames t).Nodup) :
    analyze_correlations t =
      .report (strongCorrelations (selectNumeric t))
        (strongCorrelations (selectNumeric t)).isEmpty ∧
    (∀ a b e, (a, b, e) ∈ strongCorrelations (selectNumeric t) ↔
      ∃ c d, [c, d].Sublist (selectNumeric t) ∧ a = c.name ∧ b = d.name ∧
        corrCells c.cells d.cells = some e ∧ 49/100 < |e|) ∧
    (∀ p ∈ strongCorrelations (selectNumeric t), p.1 ≠ p.2.1) ∧
    (∀ p q, p ∈ strongCorrelations (selectNumeric t) →
      q ∈ strongCorrelations (selectNumeric t) →
      ((p.1 = q.1 ∧ p.2.1 = q.2.1) ∨ (p.1 = q.2.1 ∧ p.2.1 = q.1)) →
      p = q) := by
  have hnL : ((selectNumeric t).map Column.name).Nodup := by
    have hsub : (selectNumeric t).map Column.name |>.Sublist (colNames t) :=
      (List.filter_sublist t.cols).map Column.name
    exact hn.sublist hsub
  have hLnodup : (selectNumeric t).Nodup := hnL.of_map
  refine ⟨?_, ?_, ?_, ?_⟩
  · have hne : (selectNumeric t).isEmpty = false := by
      rcases h : selectNumeric t with _ | ⟨c, rest⟩
      · rw [h] at h2; simp at h2
      · rfl
    have hr0 : (t.nrows == 0) = false := by
      simp only [beq_eq_false_iff_ne, ne_eq]
      omega
    have hlt : ¬ (selectNumeric t).length < 2 := by omega
    simp [analyze_correlations, hne, hr0, hlt]
  · intro a b e
    rw [mem_strongCorrelations]
    constructor
    · rintro ⟨c, d, hcd, hs⟩
      rw [strongOf_eq_some] at hs
      exact ⟨c, d, hcd, hs.1, hs.2.1, hs.2.2.1, hs.2.2.2⟩
    · rintro ⟨c, d, hcd, ha, hb, hcorr, hth⟩
      exact ⟨c, d, hcd, strongOf_eq_some.mpr ⟨ha, hb, hcorr, hth⟩⟩
  · rintro ⟨a, b, e⟩ hp hne
    rw [mem_strongCorrelations] at hp
    obtain ⟨c, d, hcd, hs⟩ := hp
    rw [strongOf_eq_some] at hs
    have hpair := pair_sublist_mem hcd
    have hcdne : c ≠ d := by
      intro hcde
      exact pair_sublist_antisymm hLnodup hcd (hcde ▸ hcd)
    simp only at hne
    exact hcdne (col_eq_of_name_eq hnL hpair.1 hpair.2 (hs.1 ▸ hs.2.1 ▸ hne))
  · rintro ⟨a, b, e⟩ ⟨a', b', e'⟩ hp hq hor
    rw [mem_strongCorrelations] at hp hq
    obtain ⟨c, d, hcd, hs⟩ := hp
    obtain ⟨c', d', hcd', hs'⟩ := hq
    rw [strongOf_eq_some] at hs hs'
    have hm := pair_sublist_mem hcd
    have hm' := pair_sublist_mem hcd'
    rcases hor with ⟨h1, h2⟩ | ⟨h1, h2⟩
    · simp only at h1 h2
      obtain rfl : c = c' := by
        apply col_eq_of_name_eq hnL hm.1 hm'.1
        rw [← hs.1, ← hs'.1, h1]
      obtain rfl : d = d' := by
        apply col_eq_of_name_eq hnL hm.2 hm'.2
        rw [← hs.2.1, ← hs'.2.1, h2]
      obtain rfl : e = e' := by
        have := hs.2.2.1.symm.trans hs'.2.2.1
        simpa using this
      rw [hs.1, hs'.1, hs.2.1, hs'.2.1]
    · simp only at h1 h2
      obtain rfl : c' = d := by
        apply col_eq_of_name_eq hnL hm'.1 hm.2
        rw [← hs'.1, ← hs.2.1, ← h2]
      obtain rfl : d' = c := by
        apply col_eq_of_name_eq hnL hm'.2 hm.1
        rw [← hs'.2.1, ← hs.1, ← h1]
      exact (pair_sublist_antisymm hLnodup hcd hcd').elim

/-- Witness for the amended C3 at a concrete table with a strong pair. -/
theorem strong_correlations_spec_witness :
    2 ≤ (selectNumeric ⟨[⟨"a", true, [.num 1, .num 2]⟩,
        ⟨"b", true, [.num 2, .num 4]⟩], 2⟩).length ∧
    1 ≤ (⟨[⟨"a", true, [.num 1, .num 2]⟩,
        ⟨"b", true, [.num 2, .num 4]⟩], 2⟩ : Table).nrows ∧
    (colNames ⟨[⟨"a", true, [.num 1, .num 2]⟩,
        ⟨"b", true, [.num 2, .num 4]⟩], 2⟩).Nodup ∧
    analyze_correlations ⟨[⟨"a", true, [.num 1, .num 2]⟩,
        ⟨"b", true, [.num 2, .num 4]⟩], 2⟩ =
      .report (strongCorrelations (selectNumeric ⟨[⟨"a", true, [.num 1, .num 2]⟩,
        ⟨"b", true, [.num 2, .num 4]⟩], 2⟩))
        (strongCorrelations (selectNumeric ⟨[⟨"a", true, [.num 1, .num 2]⟩,
        ⟨"b", true, [.num 2, .num 4]⟩], 2⟩)).isEmpty :=
  ⟨by decide, by decide, by decide,
    (strong_correlations_spec _ (by decide) (by decide) (by decide)).1⟩

/-! ### Symmetry and diagonal of the correlation matrix (claim C7) -/

/-- Pairwise-complete observations are order-symmetric up to swapping. -/
theorem validPairs_swap (xs ys : List Cell) :
    validPairs ys xs = (validPairs xs ys).map Prod.swap := by
  unfold validPairs
  rw [← List.zip_swap xs ys, List.filterMap_map, List.map_filterMap]
  apply List.filterMap_congr
  intro p _
  rcases p with ⟨x, y⟩
  cases x <;> cases y <;> rfl

/-- The sum of deviation products is invariant under swapping the pairs. -/
theorem sumDevProd_map_swap (ps : List (ℚ × ℚ)) :
    sumDevProd (ps.map Prod.swap) = sumDevProd ps := by
  unfold sumDevProd
  simp only [List.map_map, List.length_map]
  have h1 : ps.map (Prod.fst ∘ Prod.swap) = ps.map Prod.snd :=
    List.map_congr_left fun p _ => rfl
  have h2 : ps.map (Prod.snd ∘ Prod.swap) = ps.map Prod.fst :=
    List.map_congr_left fun p _ => rfl
  rw [h1, h2]
  apply congrArg List.sum
  apply List.map_congr_left
  intro p _
  simp only [Function.comp_apply, Prod.fst_swap, Prod.snd_swap]
  ring

/-- Projecting swapped pairs onto their first coordinate twice gives the
second-coordinate diagonal. -/
theorem map_swap_diag_fst (ps : List (ℚ × ℚ)) :
    (ps.map Prod.swap).map (fun p => (p.1, p.1)) =
      ps.map fun p => (p.2, p.2) := by
  rw [List.map_map]
  exact List.map_congr_left fun p _ => rfl

/-- Projecting swapped pairs onto their second coordinate twice gives the
first-coordinate diagonal. -/
theorem map_swap_diag_snd (ps : List (ℚ × ℚ)) :
    (ps.map Prod.swap).map (fun p => (p.2, p.2)) =
      ps.map fun p => (p.1, p.1) := by
  rw [List.map_map]
  exact List.map_congr_left fun p _ => rfl

/-- A pandas correlation entry is symmetric in its two columns. -/
theorem corrCells_symm (xs ys : List Cell) :
    corrCells xs ys = corrCells ys xs := by
  unfold corrCells
  dsimp only
  rw [validPairs_swap xs ys, sumDevProd_map_swap, map_swap_diag_fst,
    map_swap_diag_snd]
  rcases eq_or_ne (sumDevProd ((validPairs xs ys).map fun p => (p.1, p.1)) *
      sumDevProd ((validPairs xs ys).map fun p => (p.2, p.2))) 0 with h | h
  · rw [if_pos h, if_pos (by rw [mul_comm] at h; exact h)]
  · rw [if_neg h, if_neg (by rw [mul_comm] at h; exact h)]
    congr 1
    ring

/-- Zipping a list with itself pairs each element with itself. -/
theorem zip_self_eq_map_diag (xs : List Cell) :
    xs.zip xs = xs.map fun x => (x, x) := by
  induction xs with
  | nil => rfl
  | cons a l ih => simp [List.zip_cons_cons, ih]

/-- The pairwise-complete observations of a column with itself are its
numeric values, each paired with itself. -/
theorem validPairs_self (xs : List Cell) :
    validPairs xs xs =
      (xs.filterMap fun c =>
        match c with
        | .num q => some q
        | _ => none).map fun v => (v, v) := by
  unfold validPairs
  rw [zip_self_eq_map_diag, List.filterMap_map, List.map_filterMap]
  apply List.filterMap_congr
  intro c _
  cases c <;> rfl

/-- The deviation-product sum of a self-paired list is a sum of squares,
hence nonnegative. -/
theorem sumDevProd_diag_nonneg (vs : List ℚ) :
    0 ≤ sumDevProd (vs.map fun v => (v, v)) := by
  unfold sumDevProd
  apply List.sum_nonneg
  intro x hx
  simp only [List.map_map, List.mem_map] at hx
  obtain ⟨v, -, rfl⟩ := hx
  exact mul_self_nonneg _

/-- A diagonal entry of the pandas correlation matrix equals 1 whenever the
deviation sum of squares of the column is nonzero (otherwise pandas yields
NaN). -/
theorem corrCells_self (xs : List Cell) (h : varianceProxy xs ≠ 0) :
    corrCells xs xs = some 1 := by
  have hps : ((validPairs xs xs).map fun p => (p.1, p.1)) = validPairs xs xs := by
    rw [validPairs_self, List.map_map]
    exact List.map_congr_left fun p _ => rfl
  have hps2 : ((validPairs xs xs).map fun p => (p.2, p.2)) = validPairs xs xs := by
    rw [validPairs_self, List.map_map]
    exact List.map_congr_left fun p _ => rfl
  have hnn : 0 ≤ varianceProxy xs := by
    unfold varianceProxy
    rw [validPairs_self]
    exact sumDevProd_diag_nonneg _
  have hpos : 0 < varianceProxy xs := lt_of_le_of_ne hnn (Ne.symm h)
  unfold corrCells
  dsimp only
  rw [hps, hps2]
  have hS : sumDevProd (validPairs xs xs) = varianceProxy xs := rfl
  rw [hS, if_neg (mul_ne_zero h h)]
  congr 1
  rw [abs_of_pos hpos]
  field_simp

/-- Counterexample table for claim C7: the first numeric column is
constant, so pandas puts NaN (not 1) on its diagonal entry. -/
def tConstCol : Table :=
  ⟨[⟨"a", true, [.num 1, .num 1]⟩, ⟨"b", true, [.num 1, .num 2]⟩], 2⟩

/-- Claim C7, counterexample: a table with two numeric columns whose
correlation-matrix diagonal entry for the constant column "a" is NaN
(modelled `none`), not 1. -/
theorem corr_matrix_diag_nan_constant_column :
    2 ≤ (selectNumeric tConstCol).length ∧
    corrMatrix tConstCol ⟨0, by decide⟩ ⟨0, by decide⟩ = none := by
  refine ⟨by decide, ?_⟩
  have hget : ((selectNumeric tConstCol).get ⟨0, by decide⟩).cells =
      [Cell.num 1, Cell.num 1] := rfl
  show corrCells ((selectNumeric tConstCol).get ⟨0, by decide⟩).cells
      ((selectNumeric tConstCol).get ⟨0, by decide⟩).cells = none
  rw [hget]
  have hvp : validPairs [Cell.num 1, Cell.num 1] [Cell.num 1, Cell.num 1] =
      [((1 : ℚ), (1 : ℚ)), (1, 1)] := by
    simp [validPairs]
  unfold corrCells
  rw [hvp]
  norm_num [sumDevProd]

/-- Claim C7, amended (the counterexample forces the nonzero-variance
hypothesis on the diagonal part): for a table with at least two numeric
columns the correlation matrix is symmetric, and the diagonal entry of
every numeric column with nonzero deviation sum of squares equals 1
(the diagonal entry of a zero-variance column is NaN instead). -/
theorem corr_matrix_symmetric_unit_diag (t : Table)
    (h2 : 2 ≤ (selectNumeric t).length)
    (i j : Fin (selectNumeric t).length)
    (hv : varianceProxy ((selectNumeric t).get i).cells ≠ 0) :
    corrMatrix t i j = corrMatrix t j i ∧ corrMatrix t i i = some 1 := by
  exact ⟨corrCells_symm _ _, corrCells_self _ hv⟩

/-- Witness for the amended C7 at a concrete table. -/
theorem corr_matrix_symmetric_unit_diag_witness :
    2 ≤ (selectNumeric tConstCol).length ∧
    varianceProxy ((selectNumeric tConstCol).get ⟨1, by decide⟩).cells ≠ 0 ∧
    (corrMatrix tConstCol ⟨1, by decide⟩ ⟨0, by decide⟩ =
      corrMatrix tConstCol ⟨0, by decide⟩ ⟨1, by decide⟩ ∧
    corrMatrix tConstCol ⟨1, by decide⟩ ⟨1, by decide⟩ = some 1) := by
  have hv : varianceProxy ((selectNumeric tConstCol).get ⟨1, by decide⟩).cells ≠ 0 := by
    have hget : ((selectNumeric tConstCol).get ⟨1, by decide⟩).cells =
        [Cell.num 1, Cell.num 2] := rfl
    rw [hget]
    unfold varianceProxy
    have hvp : validPairs [Cell.num 1, Cell.num 2] [Cell.num 1, Cell.num 2] =
        [((1 : ℚ), (1 : ℚ)), (2, 2)] := by
      simp [validPairs]
    rw [hvp]
    norm_num [sumDevProd]
  exact ⟨by decide, hv,
    corr_matrix_symmetric_unit_diag tConstCol (by decide) _ _ hv⟩

/-! ### detect_outliers (src/data_analyzer.py, lines 125-147)

pandas `Series.quantile` drops NaN, sorts the remaining values and
interpolates linearly: for quantile q over n sorted values, with h = q(n-1),
the result is s[⌊h⌋] + (h - ⌊h⌋)(s[⌊h⌋+1] - s[⌊h⌋]). The quantile of an
empty series is NaN (`none`), and comparisons against a NaN bound are
false, as in the boolean filter of the source. -/

/-- Insertion into a sorted list of rationals. -/
def insertSortedQ (x : ℚ) : List ℚ → List ℚ
  | [] => [x]
  | y :: ys => if x ≤ y then x :: y :: ys else y :: insertSortedQ x ys

/-- Sorting a list of rationals ascending (insertion sort). -/
def sortQ (l : List ℚ) : List ℚ := l.foldr insertSortedQ []

/-- Linear-interpolation quantile of a nonempty sorted list, pandas
linear interpolation. The out-of-range index default makes the
interpolation term vanish when ⌊h⌋ is the last index. -/
def quantileSorted (s : List ℚ) (q : ℚ) : ℚ :=
  let h := q * ((s.length : ℚ) - 1)
  let i := (⌊h⌋).toNat
  let lo := s.getD i 0
  let hi := s.getD (i + 1) lo
  lo + (h - (i : ℚ)) * (hi - lo)

/-- pandas `Series.quantile` over the non-missing values: NaN (`none`) for
an empty series. -/
def quantileQ (vals : List ℚ) (q : ℚ) : Option ℚ :=
  match sortQ vals with
  | [] => none
  | x :: xs => some (quantileSorted (x :: xs) q)

/-- One line of the outlier report for a numeric column: the Tukey bounds
(NaN when the column has no values), their 3-decimal displayed forms, and
the row count of the boolean filter
`(col < lower_bound) | (col > upper_bound)`. -/
structure OutlierEntry where
  colName : String
  lower : Option ℚ
  upper : Option ℚ
  lowerDisp : Option ℚ
  upperDisp : Option ℚ
  count : ℕ
deriving DecidableEq, Repr

/-- The boolean filter of the source: true iff the cell is a numeric value
strictly outside the bounds; any comparison involving NaN is false. -/
def cellOutside (lower upper : Option ℚ) (cell : Cell) : Bool :=
  match cell, lower, upper with
  | .num v, some lb, some ub => decide (v < lb) || decide (ub < v)
  | _, _, _ => false

/-- The per-column body of the `detect_outliers` loop: Q1 and Q3 by
`quantile(0.25)` / `quantile(0.75)`, IQR = Q3 - Q1,
bounds Q1 - 1.5·IQR and Q3 + 1.5·IQR, bounds displayed to 3 decimals, and
the filtered row count. -/
def outlierEntry (c : Column) : OutlierEntry :=
  let vals := numericValues c
  let q1 := quantileQ vals (1/4)
  let q3 := quantileQ vals (3/4)
  let lower : Option ℚ :=
    match q1, q3 with
    | some a, some b => some (a - 3/2 * (b - a))
    | _, _ => none
  let upper : Option ℚ :=
    match q1, q3 with
    | some a, some b => some (b + 3/2 * (b - a))
    | _, _ => none
  { colName := c.name
    lower := lower
    upper := upper
    lowerDisp := lower.map (roundTo 3)
    upperDisp := upper.map (roundTo 3)
    count := c.cells.countP (cellOutside lower upper) }

/-- Structured outcome of `detect_outliers`: the early message or one
report entry per numeric column. -/
inductive OutlierOutcome where
  | message (s : String)
  | report (entries : List OutlierEntry)
deriving DecidableEq, Repr

/-- Embedding of `DataAnalyzer.detect_outliers`. -/
def detect_outliers (t : Table) : OutlierOutcome :=
  let nd := selectNumeric t
  if nd.isEmpty || t.nrows == 0 then .message "没有数值型数据可用于异常值检测"
  else .report (nd.map outlierEntry)

/-- Inserting into a sorted list never yields the empty list. -/
theorem insertSortedQ_ne_nil (x : ℚ) (l : List ℚ) :
    insertSortedQ x l ≠ [] := by
  cases l with
  | nil => simp [insertSortedQ]
  | cons y ys =>
    simp only [insertSortedQ]
    split <;> simp

/-- The quantile of a nonempty value list is the interpolated quantile of
its sorted form. -/
theorem quantileQ_of_ne_nil {vals : List ℚ} (h : vals ≠ []) (q : ℚ) :
    quantileQ vals q = some (quantileSorted (sortQ vals) q) := by
  have hs : sortQ vals ≠ [] := by
    rcases vals with _ | ⟨v, vs⟩
    · exact absurd rfl h
    · exact insertSortedQ_ne_nil v (sortQ vs)
  unfold quantileQ
  rcases h' : sortQ vals with _ | ⟨x, xs⟩
  · exact absurd h' hs
  · rfl

/-- Counting cells passing the outside-bounds filter equals counting the
numeric values strictly outside the bounds. -/
theorem countP_outside_filterMap (cells : List Cell) (lb ub : ℚ) :
    cells.countP (cellOutside (some lb) (some ub)) =
      (cells.filterMap fun cell =>
        match cell with
        | .num q => some q
        | _ => none).countP
        fun v => decide (v < lb) || decide (ub < v) := by
  induction cells with
  | nil => rfl
  | cons a l ih =>
    cases a <;>
      simp [List.countP_cons, cellOutside, ih, List.filterMap_cons]

/-- Claim C4: for every numeric column with at least one non-missing value,
`detect_outliers` reports an entry whose bounds are
Q1 - 1.5·(Q3 - Q1) and Q3 + 1.5·(Q3 - Q1) for the quartiles of the column,
whose displayed bounds are those values rounded to 3 decimals, and whose
outlier count is exactly the number of values strictly below the lower
bound or strictly above the upper bound. -/
theorem outlier_bounds_and_count (t : Table) (c : Column)
    (hwf : WF t) (hc : c ∈ t.cols) (hnum : c.numericDtype = true)
    (hv : numericValues c ≠ []) :
    ∃ es, detect_outliers t = .report es ∧ outlierEntry c ∈ es ∧
      ∃ a b, quantileQ (numericValues c) (1/4) = some a ∧
        quantileQ (numericValues c) (3/4) = some b ∧
        (outlierEntry c).lower = some (a - 3/2 * (b - a)) ∧
        (outlierEntry c).upper = some (b + 3/2 * (b - a)) ∧
        (outlierEntry c).lowerDisp = some (roundTo 3 (a - 3/2 * (b - a))) ∧
        (outlierEntry c).upperDisp = some (roundTo 3 (b + 3/2 * (b - a))) ∧
        (outlierEntry c).count =
          (numericValues c).countP
            (fun v => decide (v < a - 3/2 * (b - a)) ||
              decide (b + 3/2 * (b - a) < v)) := by
  have hcn : c ∈ selectNumeric t := by
    rw [selectNumeric, List.mem_filter]
    exact ⟨hc, hnum⟩
  have hcells : c.cells ≠ [] := by
    intro hnil
    apply hv
    rw [numericValues, hnil]
    rfl
  have hrows : t.nrows ≠ 0 := by
    intro h0
    have := hwf c hc
    rw [h0, List.length_eq_zero] at this
    exact hcells this
  have hne : (selectNumeric t).isEmpty = false := by
    rcases h' : selectNumeric t with _ | ⟨d, rest⟩
    · rw [h'] at hcn; simp at hcn
    · rfl
  refine ⟨(selectNumeric t).map outlierEntry, ?_, List.mem_map_of_mem _ hcn, ?_⟩
  · have hr0 : (t.nrows == 0) = false := by
      simp only [beq_eq_false_iff_ne, ne_eq]
      exact hrows
    simp [detect_outliers, hne, hr0]
  · obtain ⟨a, ha⟩ : ∃ a, quantileQ (numericValues c) (1/4) = some a :=
      ⟨_, quantileQ_of_ne_nil hv _⟩
    obtain ⟨b, hb⟩ : ∃ b, quantileQ (numericValues c) (3/4) = some b :=
      ⟨_, quantileQ_of_ne_nil hv _⟩
    refine ⟨a, b, ha, hb, ?_, ?_, ?_, ?_, ?_⟩ <;>
      simp only [outlierEntry, ha, hb, Option.map_some']
    exact countP_outside_filterMap c.cells _ _

/-- Witness for C4 at a concrete one-column table. -/
theorem outlier_bounds_and_count_witness :
    WF ⟨[⟨"a", true, [.num 1, .num 2, .num 3, .num 100]⟩], 4⟩ ∧
    (⟨"a", true, [.num 1, .num 2, .num 3, .num 100]⟩ : Column) ∈
      (⟨[⟨"a", true, [.num 1, .num 2, .num 3, .num 100]⟩], 4⟩ : Table).cols ∧
    (⟨"a", true, [.num 1, .num 2, .num 3, .num 100]⟩ : Column).numericDtype = true ∧
    numericValues ⟨"a", true, [.num 1, .num 2, .num 3, .num 100]⟩ ≠ [] ∧
    ∃ es, detect_outliers ⟨[⟨"a", true, [.num 1, .num 2, .num 3, .num 100]⟩], 4⟩ =
        .report es ∧
      outlierEntry ⟨"a", true, [.num 1, .num 2, .num 3, .num 100]⟩ ∈ es ∧
      ∃ a b,
        quantileQ (numericValues ⟨"a", true, [.num 1, .num 2, .num 3, .num 100]⟩)
          (1/4) = some a ∧
        quantileQ (numericValues ⟨"a", true, [.num 1, .num 2, .num 3, .num 100]⟩)
          (3/4) = some b ∧
        (outlierEntry ⟨"a", true, [.num 1, .num 2, .num 3, .num 100]⟩).lower =
          some (a - 3/2 * (b - a)) ∧
        (outlierEntry ⟨"a", true, [.num 1, .num 2, .num 3, .num 100]⟩).upper =
          some (b + 3/2 * (b - a)) ∧
        (outlierEntry ⟨"a", true, [.num 1, .num 2, .num 3, .num 100]⟩).lowerDisp =
          some (roundTo 3 (a - 3/2 * (b - a))) ∧
        (outlierEntry ⟨"a", true, [.num 1, .num 2, .num 3, .num 100]⟩).upperDisp =
          some (roundTo 3 (b + 3/2 * (b - a))) ∧
        (outlierEntry ⟨"a", true, [.num 1, .num 2, .num 3, .num 100]⟩).count =
          (numericValues ⟨"a", true, [.num 1, .num 2, .num 3, .num 100]⟩).countP
            (fun v => decide (v < a - 3/2 * (b - a)) ||
              decide (b + 3/2 * (b - a) < v)) :=
  ⟨by decide, by decide, by decide, by decide,
    outlier_bounds_and_count _ _ (by decide) (by decide) (by decide) (by decide)⟩

/-! ### VisualizationEngine (src/visualization_engine.py)

`create_chart` dispatches on the chart-type string, and any exception from
a strategy (including pandas KeyError for an absent column, whose `str` is
the name wrapped in single quotes — escape \x27) is re-raised as
"创建图表失败: " followed by the original message. The grouped branches
are guarded by `if group_col and group_col in data.columns`: Python
truthiness makes `None` and the empty string fall through to the ungrouped
branch, and so does a group name that is not a column. A render is
described by the `Render` value recording the strategy taken and the data
handed to the plotting library; seaborn-resolved lookups (box, distplot,
violin) are modelled as errors carrying the absent name. -/

/-- The cells of a named column, empty list when absent (used only where
presence was already established). -/
def colCells (t : Table) (name : String) : List Cell :=
  match t.cols.find? (fun c => c.name = name) with
  | some c => c.cells
  | none => []

/-- Column lookup `data[name]`: KeyError carrying the quoted name when
absent. -/
def getCol (t : Table) (name : String) : Except String (List Cell) :=
  match t.cols.find? (fun c => c.name = name) with
  | some c => .ok c.cells
  | none => .error ("\x27" ++ name ++ "\x27")

/-- Lookup through an optional y-column name; `data[None]` raises
KeyError(None), whose message is "None". -/
def getColOpt (t : Table) : Option String → Except String (List Cell)
  | some n => getCol t n
  | none => .error "None"

/-- The guard `if group_col and group_col in data.columns`: group name
supplied, truthy (nonempty), and present among the columns. -/
def truthyMem (g : Option String) (t : Table) : Bool :=
  match g with
  | some s => (!(s == "")) && t.cols.any (fun c => c.name = s)
  | none => false

/-- Distinct non-missing cell values in first-occurrence order (pandas
groupby / pivot keys drop NaN; pandas sorts the keys, an ordering
irrelevant to the claims and not modelled). -/
def distinctKeys (l : List Cell) : List Cell :=
  l.foldl (fun acc x =>
    if Cell.isNA x then acc
    else if x ∈ acc then acc else acc ++ [x]) []

/-- Keep the entries of `cells` whose mask bit is true. -/
def maskFilter (mask : List Bool) (cells : List Cell) : List Cell :=
  ((mask.zip cells).filter (fun p => p.1)).map (fun p => p.2)

/-- The aggregation function of a `pivot_table` call. -/
inductive AggFun where
  | mean
  | sum
deriving DecidableEq, Repr

/-- One aggregated pivot cell over the y-values of the matching rows:
absent combinations are NaN; `mean` skips missing values and is NaN when
none remain; `sum` skips missing values and is 0 when none remain (pandas
skipna defaults). -/
def aggCell (agg : AggFun) (matched : List Cell) : Option ℚ :=
  if matched.isEmpty then none
  else
    let vals := matched.filterMap fun cell =>
      match cell with
      | .num q => some q
      | _ => none
    match agg with
    | .mean => if vals.isEmpty then none else some (vals.sum / (vals.length : ℚ))
    | .sum => some vals.sum

/-- Result of `data.pivot_table(values=y, index=x, columns=g, aggfunc=...)`:
the distinct non-missing x-keys as index, the distinct non-missing group
keys as columns, and the aggregated y-value grid. -/
structure Pivot where
  agg : AggFun
  index : List Cell
  columns : List Cell
  grid : List (List (Option ℚ))
deriving DecidableEq, Repr

/-- The y-cells of the rows whose x-cell and group-cell match the given
keys. -/
def matchedY (xs gs ys : List Cell) (xv gv : Cell) : List Cell :=
  (xs.zip (gs.zip ys)).filterMap fun r =>
    if r.1 = xv ∧ r.2.1 = gv then some r.2.2 else none

/-- Building the pivot table from the three involved columns. -/
def mkPivot (xs gs ys : List Cell) (agg : AggFun) : Pivot :=
  let idx := distinctKeys xs
  let cols := distinctKeys gs
  { agg := agg
    index := idx
    columns := cols
    grid := idx.map fun xv => cols.map fun gv =>
      aggCell agg (matchedY xs gs ys xv gv) }

/-- Description of a completed render: which strategy ran and the column
data handed to the plotting calls. -/
inductive Render where
  | lineGrouped (series : List (Cell × List Cell × List Cell))
  | lineSimple (xs ys : List Cell)
  | barGrouped (pv : Pivot)
  | barSimple (xs ys : List Cell)
  | scatterGrouped (series : List (Cell × List Cell × List Cell))
  | scatterSimple (xs ys : List Cell)
  | pieChart (counts : List (Cell × ℕ))
  | areaGrouped (pv : Pivot)
  | areaSimple (xs ys : List Cell)
  | boxGrouped (xs ys : List Cell)
  | boxSingle (vals : List Cell)
  | heatmapR (numericNames : List String)
  | distR (xs : List Cell)
  | violinGrouped (xs ys : List Cell)
  | violinSingle (vals : List Cell)
  | pairR (c1 c2 : String) (hue : Option String)
deriving DecidableEq, Repr

/-- Embedding of `create_line_chart`: one plotted series per group key when
the group guard holds (`data.groupby` then `group[x_col]`, `group[y_col]`
inside the loop), otherwise a single series from `data[x_col]`,
`data[y_col]`. -/
def create_line_chart (t : Table) (x : String) (y g : Option String) :
    Except String Render :=
  if truthyMem g t then
    let gcells := colCells t (g.getD "")
    (distinctKeys gcells).mapM (fun k => do
      let mask := gcells.map fun c => decide (c = k)
      let xs ← getCol t x
      let ys ← getColOpt t y
      pure (k, maskFilter mask xs, maskFilter mask ys)) >>=
      fun series => pure (.lineGrouped series)
  else do
    let xs ← getCol t x
    let ys ← getColOpt t y
    pure (.lineSimple xs ys)

/-- Embedding of `create_bar_chart`: when grouped, pandas
`pivot_table(values=y_col, index=x_col, columns=group_col, aggfunc mean)`
(resolving the three columns) plotted as bars; otherwise
`ax.bar(data[x_col], data[y_col])`. -/
def create_bar_chart (t : Table) (x : String) (y g : Option String) :
    Except String Render :=
  if truthyMem g t then do
    let ys ← getColOpt t y
    let xs ← getCol t x
    pure (.barGrouped (mkPivot xs (colCells t (g.getD "")) ys .mean))
  else do
    let xs ← getCol t x
    let ys ← getColOpt t y
    pure (.barSimple xs ys)

/-- Embedding of `create_scatter_chart`, structurally as the line chart. -/
def create_scatter_chart (t : Table) (x : String) (y g : Option String) :
    Except String Render :=
  if truthyMem g t then
    let gcells := colCells t (g.getD "")
    (distinctKeys gcells).mapM (fun k => do
      let mask := gcells.map fun c => decide (c = k)
      let xs ← getCol t x
      let ys ← getColOpt t y
      pure (k, maskFilter mask xs, maskFilter mask ys)) >>=
      fun series => pure (.scatterGrouped series)
  else do
    let xs ← getCol t x
    let ys ← getColOpt t y
    pure (.scatterSimple xs ys)

/-- Embedding of `create_pie_chart`: `data[x_col].value_counts()` rendered
as slices (frequencies of the distinct non-missing values; pandas orders by
descending count, an ordering irrelevant here and not modelled). -/
def create_pie_chart (t : Table) (x : String) : Except String Render := do
  let xs ← getCol t x
  pure (.pieChart ((distinctKeys xs).map fun k =>
    (k, xs.countP fun c => decide (c = k))))

/-- Embedding of `create_area_chart`: as the bar chart but with
`aggfunc sum` on the grouped path. -/
def create_area_chart (t : Table) (x : String) (y g : Option String) :
    Except String Render :=
  if truthyMem g t then do
    let ys ← getColOpt t y
    let xs ← getCol t x
    pure (.areaGrouped (mkPivot xs (colCells t (g.getD "")) ys .sum))
  else do
    let xs ← getCol t x
    let ys ← getColOpt t y
    pure (.areaSimple xs ys)

/-- Embedding of `create_box_plot`: `if x_col and y_col` (Python
truthiness) renders a grouped distribution via seaborn (which resolves the
names itself and raises on an absent one, modelled as a name-carrying
error); otherwise a single distribution of whichever column name is
truthy. -/
def create_box_plot (t : Table) (x : String) (y : Option String) :
    Except String Render :=
  if x ≠ "" ∧ y.getD "" ≠ "" then do
    let xs ← getCol t x
    let ys ← getColOpt t y
    pure (.boxGrouped xs ys)
  else do
    let vals ← if x ≠ "" then getCol t x else getColOpt t y
    pure (.boxSingle vals)

/-- Embedding of `create_heatmap`: raises when the numeric sub-frame is
empty (zero numeric columns or zero rows), else renders the annotated
correlation matrix of the numeric columns. -/
def create_heatmap (t : Table) : Except String Render :=
  if (selectNumeric t).isEmpty || t.nrows == 0 then
    .error "没有数值型数据可用于热力图"
  else .ok (.heatmapR ((selectNumeric t).map (·.name)))

/-- Embedding of `create_distribution_plot`: a seaborn histogram of the
x-column (the absent-name failure modelled as a name-carrying error). -/
def create_distribution_plot (t : Table) (x : String) :
    Except String Render := do
  let xs ← getCol t x
  pure (.distR xs)

/-- Embedding of `create_violin_plot`, structurally as the box plot. -/
def create_violin_plot (t : Table) (x : String) (y : Option String) :
    Except String Render :=
  if x ≠ "" ∧ y.getD "" ≠ "" then do
    let xs ← getCol t x
    let ys ← getColOpt t y
    pure (.violinGrouped xs ys)
  else do
    let vals ← if x ≠ "" then getCol t x else getColOpt t y
    pure (.violinSingle vals)

/-- Embedding of `create_pair_plot`: raises on an empty numeric sub-frame;
with at least two numeric columns, scatters the first two, hued by the
group column under the same truthiness-and-membership guard; otherwise
raises the need-two message. -/
def create_pair_plot (t : Table) (g : Option String) :
    Except String Render :=
  if (selectNumeric t).isEmpty || t.nrows == 0 then
    .error "没有数值型数据可用于配对图"
  else
    match selectNumeric t with
    | c1 :: c2 :: _ =>
      .ok (.pairR c1.name c2.name
        (if truthyMem g t then some (g.getD "") else none))
    | _ => .error "需要至少两个数值型变量用于配对图"

/-- The ten supported chart-kind tags, in dispatch order. -/
def supportedChartTypes : List String :=
  ["line", "bar", "scatter", "pie", "area", "box", "heatmap", "distplot",
    "violin", "pairplot"]

/-- The `if/elif` dispatch chain of `create_chart`, before the wrapping
`try/except`. -/
def dispatchChart (t : Table) (chartType x : String) (y g : Option String) :
    Except String Render :=
  if chartType = "line" then create_line_chart t x y g
  else if chartType = "bar" then create_bar_chart t x y g
  else if chartType = "scatter" then create_scatter_chart t x y g
  else if chartType = "pie" then create_pie_chart t x
  else if chartType = "area" then create_area_chart t x y g
  else if chartType = "box" then create_box_plot t x y
  else if chartType = "heatmap" then create_heatmap t
  else if chartType = "distplot" then create_distribution_plot t x
  else if chartType = "violin" then create_violin_plot t x y
  else if chartType = "pairplot" then create_pair_plot t g
  else .error ("不支持的图表类型: " ++ chartType)

/-- Embedding of `VisualizationEngine.create_chart`: the dispatch chain
wrapped by the `except` clause that re-raises every failure with the
"创建图表失败: " prefix. -/
def create_chart (t : Table) (chartType x : String) (y g : Option String) :
    Except String Render :=
  match dispatchChart t chartType x y g with
  | .ok r => .ok r
  | .error e => .error ("创建图表失败: " ++ e)

/-! ### Lookup lemmas for the dispatcher claims -/

/-- Looking up an absent column raises the KeyError message carrying the
quoted name. -/
theorem getCol_of_not_mem {t : Table} {name : String}
    (h : name ∉ colNames t) :
    getCol t name = .error ("\x27" ++ name ++ "\x27") := by
  unfold getCol
  have hf : t.cols.find? (fun c => c.name = name) = none := by
    rw [List.find?_eq_none]
    intro c hc
    simp only [decide_eq_true_eq]
    intro he
    exact h (he ▸ List.mem_map_of_mem Column.name hc)
  rw [hf]

/-- Looking up a present column succeeds with its cells. -/
theorem getCol_of_mem {t : Table} {name : String} (h : name ∈ colNames t) :
    getCol t name = .ok (colCells t name) := by
  unfold getCol colCells
  rcases hf : t.cols.find? (fun c => c.name = name) with _ | c
  · exfalso
    rw [List.find?_eq_none] at hf
    unfold colNames at h
    obtain ⟨c, hc, rfl⟩ := List.mem_map.mp h
    exact hf c hc (by simp)
  · rw [hf]

/-- The group guard holds for a nonempty group name naming a column. -/
theorem truthyMem_of_mem {t : Table} {s : String} (hs : s ≠ "")
    (hm : s ∈ colNames t) : truthyMem (some s) t = true := by
  show ((!(s == "")) && (t.cols.any fun c => c.name = s)) = true
  rw [Bool.and_eq_true]
  constructor
  · simp [hs]
  · rw [List.any_eq_true]
    unfold colNames at hm
    obtain ⟨c, hc, rfl⟩ := List.mem_map.mp hm
    exact ⟨c, hc, by simp⟩

/-! ### Claim C6: unknown chart kinds are rejected, never defaulted -/

/-- Claim C6: for every chart-kind tag outside the ten supported ones,
`create_chart` raises a failure whose message carries the invalid tag, and
renders nothing. -/
theorem unknown_chart_type_rejected (t : Table) (chartType x : String)
    (y g : Option String) (h : chartType ∉ supportedChartTypes) :
    create_chart t chartType x y g =
      .error ("创建图表失败: " ++ ("不支持的图表类型: " ++ chartType)) := by
  simp only [supportedChartTypes, List.mem_cons, List.not_mem_nil, or_false,
    not_or] at h
  obtain ⟨h1, h2, h3, h4, h5, h6, h7, h8, h9, h10⟩ := h
  simp [create_chart, dispatchChart, h1, h2, h3, h4, h5, h6, h7, h8, h9, h10]

/-- Witness for C6 at the concrete unknown tag "histogram". -/
theorem unknown_chart_type_rejected_witness :
    "histogram" ∉ supportedChartTypes ∧
    create_chart ⟨[], 0⟩ "histogram" "x" none none =
      .error ("创建图表失败: " ++ ("不支持的图表类型: " ++ "histogram")) :=
  ⟨by decide, unknown_chart_type_rejected _ _ _ _ _ (by decide)⟩

/-! ### Claim C8: heatmap / pair-plot precondition failures -/

/-- Claim C8: a heatmap request on a table with zero numeric columns, and a
pair-plot request on a table with fewer than two numeric columns, each
raise a specific descriptive failure (one of the dedicated messages) and
render nothing. -/
theorem precondition_failures_heatmap_pairplot (t u : Table) (x : String)
    (y g : Option String)
    (hh : selectNumeric t = []) (hp : (selectNumeric u).length < 2) :
    create_chart t "heatmap" x y g =
      .error ("创建图表失败: " ++ "没有数值型数据可用于热力图") ∧
    ∃ m, create_chart u "pairplot" x y g =
        .error ("创建图表失败: " ++ m) ∧
      (m = "没有数值型数据可用于配对图" ∨
        m = "需要至少两个数值型变量用于配对图") := by
  constructor
  · simp [create_chart, dispatchChart, create_heatmap, hh]
  · rcases h' : selectNumeric u with _ | ⟨c, rest⟩
    · exact ⟨"没有数值型数据可用于配对图",
        by simp [create_chart, dispatchChart, create_pair_plot, h'],
        Or.inl rfl⟩
    · rcases rest with _ | ⟨d, rest2⟩
      · by_cases hn : u.nrows = 0
        · exact ⟨"没有数值型数据可用于配对图",
            by simp [create_chart, dispatchChart, create_pair_plot, h', hn],
            Or.inl rfl⟩
        · exact ⟨"需要至少两个数值型变量用于配对图",
            by simp [create_chart, dispatchChart, create_pair_plot, h', hn],
            Or.inr rfl⟩
      · rw [h'] at hp
        simp at hp
        omega

/-- Witness for C8 at a concrete table with no numeric column. -/
theorem precondition_failures_heatmap_pairplot_witness :
    selectNumeric ⟨[⟨"s", false, [.str "p"]⟩], 1⟩ = [] ∧
    (selectNumeric ⟨[⟨"s", false, [.str "p"]⟩], 1⟩).length < 2 ∧
    (create_chart ⟨[⟨"s", false, [.str "p"]⟩], 1⟩ "heatmap" "x" none none =
      .error ("创建图表失败: " ++ "没有数值型数据可用于热力图") ∧
    ∃ m, create_chart ⟨[⟨"s", false, [.str "p"]⟩], 1⟩ "pairplot" "x" none none =
        .error ("创建图表失败: " ++ m) ∧
      (m = "没有数值型数据可用于配对图" ∨
        m = "需要至少两个数值型变量用于配对图")) :=
  ⟨by decide, by decide,
    precondition_failures_heatmap_pairplot _ _ _ _ _ (by decide) (by decide)⟩

/-! ### Claim C1: column validation of chart requests -/

/-- Counterexample table for claim C1. -/
def tXY : Table :=
  ⟨[⟨"x", true, [.num 1, .num 2, .num 3]⟩,
    ⟨"y", true, [.num 10, .num 20, .num 30]⟩], 3⟩

/-- Claim C1, counterexample: requesting a line chart with the group column
"g", absent from the table, raises nothing — the chart silently renders as
an ungrouped single series, which the claim forbids. -/
theorem absent_group_column_silently_ignored :
    "g" ∉ colNames tXY ∧
    create_chart tXY "line" "x" (some "y") (some "g") =
      .ok (.lineSimple [.num 1, .num 2, .num 3]
        [.num 10, .num 20, .num 30]) :=
  ⟨by decide, rfl⟩

/-- Claim C1, amended (the counterexample forces dropping the group-column
part): on the ungrouped line-chart path (no effective grouping: group
column absent, empty, or not supplied), an absent x-column raises a failure
carrying its quoted name, an absent y-column likewise; when both are
present the chart renders as a single ungrouped series — in particular an
absent group column never raises. -/
theorem line_chart_column_validation (t : Table) (x yname : String)
    (g : Option String) (hg : truthyMem g t = false) :
    (x ∉ colNames t →
      create_chart t "line" x (some yname) g =
        .error ("创建图表失败: " ++ ("\x27" ++ x ++ "\x27"))) ∧
    (x ∈ colNames t → yname ∉ colNames t →
      create_chart t "line" x (some yname) g =
        .error ("创建图表失败: " ++ ("\x27" ++ yname ++ "\x27"))) ∧
    (x ∈ colNames t → yname ∈ colNames t →
      create_chart t "line" x (some yname) g =
        .ok (.lineSimple (colCells t x) (colCells t yname))) := by
  refine ⟨?_, ?_, ?_⟩
  · intro hx
    simp only [create_chart, dispatchChart, create_line_chart, hg, getColOpt,
      getCol_of_not_mem hx, if_true, if_pos, Bool.false_eq_true, if_false]
    rfl
  · intro hx hy
    simp only [create_chart, dispatchChart, create_line_chart, hg, getColOpt,
      getCol_of_mem hx, getCol_of_not_mem hy, Bool.false_eq_true, if_false]
    rfl
  · intro hx hy
    simp only [create_chart, dispatchChart, create_line_chart, hg, getColOpt,
      getCol_of_mem hx, getCol_of_mem hy, Bool.false_eq_true, if_false]
    rfl

/-- Witness for the amended C1 at a concrete table and absent group
column. -/
theorem line_chart_column_validation_witness :
    truthyMem (some "g") tXY = false ∧
    (("q" ∉ colNames tXY →
      create_chart tXY "line" "q" (some "y") (some "g") =
        .error ("创建图表失败: " ++ ("\x27" ++ "q" ++ "\x27"))) ∧
    ("q" ∈ colNames tXY → "y" ∉ colNames tXY →
      create_chart tXY "line" "q" (some "y") (some "g") =
        .error ("创建图表失败: " ++ ("\x27" ++ "y" ++ "\x27"))) ∧
    ("q" ∈ colNames tXY → "y" ∈ colNames tXY →
      create_chart tXY "line" "q" (some "y") (some "g") =
        .ok (.lineSimple (colCells tXY "q") (colCells tXY "y")))) :=
  ⟨by decide, line_chart_column_validation tXY "q" "y" (some "g") (by decide)⟩

/-! ### Claim C9: grouped bar / area charts pivot with mean / sum -/

/-- Counterexample table for claim C9: a column whose name is the empty
string. -/
def tEmptyName : Table :=
  ⟨[⟨"", false, [.str "u", .str "v"]⟩, ⟨"x", true, [.num 1, .num 2]⟩,
    ⟨"y", true, [.num 3, .num 4]⟩], 2⟩

/-- Claim C9, counterexample: the empty-string group column is present in
the table, yet Python truthiness of `if group_col and ...` routes the bar
chart to the ungrouped branch — no pivot happens. -/
theorem empty_named_group_column_not_pivoted :
    "" ∈ colNames tEmptyName ∧
    create_chart tEmptyName "bar" "x" (some "y") (some "") =
      .ok (.barSimple [.num 1, .num 2] [.num 3, .num 4]) :=
  ⟨by decide, rfl⟩

/-- Claim C9, amended (the counterexample forces the nonempty-name
condition): for every bar- or area-chart request whose group column has a
nonempty name present in the table (and whose x/y columns are present),
the rows are pivoted — index the distinct values of the x-column, columns the
distinct values of the group column, cells the aggregate of the y-column:
mean for bar charts and sum for area charts. -/
theorem grouped_bar_area_pivot (t : Table) (x yname gname : String)
    (hgn : gname ≠ "") (hgm : gname ∈ colNames t)
    (hx : x ∈ colNames t) (hy : yname ∈ colNames t) :
    create_chart t "bar" x (some yname) (some gname) =
      .ok (.barGrouped (mkPivot (colCells t x) (colCells t gname)
        (colCells t yname) .mean)) ∧
    create_chart t "area" x (some yname) (some gname) =
      .ok (.areaGrouped (mkPivot (colCells t x) (colCells t gname)
        (colCells t yname) .sum)) ∧
    (mkPivot (colCells t x) (colCells t gname) (colCells t yname)
      .mean).index = distinctKeys (colCells t x) ∧
    (mkPivot (colCells t x) (colCells t gname) (colCells t yname)
      .mean).columns = distinctKeys (colCells t gname) := by
  have hg : truthyMem (some gname) t = true := truthyMem_of_mem hgn hgm
  refine ⟨?_, ?_, rfl, rfl⟩
  · simp only [create_chart, dispatchChart, create_bar_chart, hg, getColOpt,
      getCol_of_mem hx, getCol_of_mem hy, if_true]
    rfl
  · simp only [create_chart, dispatchChart, create_area_chart, hg, getColOpt,
      getCol_of_mem hx, getCol_of_mem hy, if_true]
    rfl

/-- Witness for the amended C9 at a concrete grouped table. -/
theorem grouped_bar_area_pivot_witness :
    ("g" : String) ≠ "" ∧
    "g" ∈ colNames ⟨[⟨"g", false, [.str "u", .str "v"]⟩,
      ⟨"x", true, [.num 1, .num 2]⟩, ⟨"y", true, [.num 3, .num 4]⟩], 2⟩ ∧
    "x" ∈ colNames ⟨[⟨"g", false, [.str "u", .str "v"]⟩,
      ⟨"x", true, [.num 1, .num 2]⟩, ⟨"y", true, [.num 3, .num 4]⟩], 2⟩ ∧
    "y" ∈ colNames ⟨[⟨"g", false, [.str "u", .str "v"]⟩,
      ⟨"x", true, [.num 1, .num 2]⟩, ⟨"y", true, [.num 3, .num 4]⟩], 2⟩ ∧
    create_chart ⟨[⟨"g", false, [.str "u", .str "v"]⟩,
        ⟨"x", true, [.num 1, .num 2]⟩, ⟨"y", true, [.num 3, .num 4]⟩], 2⟩
      "bar" "x" (some "y") (some "g") =
      .ok (.barGrouped (mkPivot
        (colCells ⟨[⟨"g", false, [.str "u", .str "v"]⟩,
          ⟨"x", true, [.num 1, .num 2]⟩, ⟨"y", true, [.num 3, .num 4]⟩], 2⟩ "x")
        (colCells ⟨[⟨"g", false, [.str "u", .str "v"]⟩,
          ⟨"x", true, [.num 1, .num 2]⟩, ⟨"y", true, [.num 3, .num 4]⟩], 2⟩ "g")
        (colCells ⟨[⟨"g", false, [.str "u", .str "v"]⟩,
          ⟨"x", true, [.num 1, .num 2]⟩, ⟨"y", true, [.num 3, .num 4]⟩], 2⟩ "y")
        .mean)) :=
  ⟨by decide, by decide, by decide, by decide,
    (grouped_bar_area_pivot _ "x" "y" "g" (by decide) (by decide) (by decide)
      (by decide)).1⟩

end DVA
